import Mathlib

/-!
Shallow embedding of the `twilight-bucket` rate limiter (`src/lib.rs`).

Modelling choices:
* `Instant` and `Duration` are modelled as `Nat` (a monotonic clock tick count):
  every operation takes the ambient `Instant::now()` as an explicit `now : Nat`
  argument.  `Instant - Instant` and `Duration - Duration` are Rust saturating
  subtractions, which coincide with truncated `Nat` subtraction.
* `count : u16` is modelled as a `Nat` together with checked addition
  (`addU16`): the source documents `usage.count + 1` as panicking past
  `u16::MAX` (doc comment `# Panics ... when the usage count is over u16::MAX`),
  so overflow is a panic, never a silent wrap.
* The `DashMap<NonZeroU64, Usage>` is modelled as a function
  `Nat → Option Usage`; `get`/`get_mut` is application, field assignment through
  `get_mut` and `insert` are `mapInsert`.
* A panic (`id.try_into().unwrap()` on a zero id, or the overflow of
  `usage.count + 1`) is `Except.error s` where `s` is the table state left
  behind by the unwinding call; in both panicking paths the source panics
  before writing any field, so the state carried is the incoming one.
-/

/-- `Limit` from the source: `duration` is how often something can be done
`count` times. -/
structure Limit where
  duration : Nat
  count : Nat
deriving DecidableEq, Repr

/-- `Limit::new` from the source. -/
def Limit.new (duration : Nat) (count : Nat) : Limit :=
  Limit.mk duration count

/-- `Usage` from the source: the last time an ID was used, and how many times
it was used. -/
structure Usage where
  time : Nat
  count : Nat
deriving DecidableEq, Repr

/-- `Usage::new` from the source: now as `time` and 1 as `count`. -/
def Usage.new (now : Nat) : Usage :=
  Usage.mk now 1

/-- `Bucket` from the source: the limit and the usages table. -/
structure Bucket where
  limit : Limit
  usages : Nat → Option Usage

/-- `Bucket::new` from the source: the given limit and an empty table. -/
def Bucket.new (limit : Limit) : Bucket :=
  Bucket.mk limit (fun _ => none)

/-- `DashMap::insert` / assignment through `get_mut`: update one key. -/
def mapInsert (m : Nat → Option Usage) (k : Nat) (v : Usage) : Nat → Option Usage :=
  fun q => if q = k then some v else m q

/-- Checked `u16` addition: `none` models the documented overflow panic of
`usage.count + 1` past `u16::MAX = 65535`. -/
def addU16 (a : Nat) (b : Nat) : Option Nat :=
  if a + b ≤ 65535 then some (a + b) else none

/-- `Bucket::register` from the source.  `Except.error s` is a panic leaving
table state `s` behind: on a zero `id`, `id.try_into().unwrap()` panics before
the table is read; on overflow, `usage.count + 1` panics before either field
is written, so in both cases the carried state is the incoming bucket. -/
def Bucket.register (b : Bucket) (id : Nat) (now : Nat) : Except Bucket Bucket :=
  if id = 0 then Except.error b
  else
    match b.usages id with
    | some usage =>
      match (if now - usage.time > b.limit.duration then some 1
             else addU16 usage.count 1) with
      | some c => Except.ok (Bucket.mk b.limit (mapInsert b.usages id (Usage.mk now c)))
      | none => Except.error b
    | none => Except.ok (Bucket.mk b.limit (mapInsert b.usages id (Usage.new now)))

/-- `Bucket::limit_duration` from the source.  `Except.error s` is the panic of
`id.try_into().unwrap()` on a zero `id`, carrying the untouched table. -/
def Bucket.limit_duration (b : Bucket) (id : Nat) (now : Nat) : Except Bucket (Option Nat) :=
  if id = 0 then Except.error b
  else
    match b.usages id with
    | none => Except.ok none
    | some usage =>
      let elapsed := now - usage.time
      Except.ok (if usage.count ≥ b.limit.count ∧ b.limit.duration > elapsed
        then some (b.limit.duration - elapsed)
        else none)

/-- One API call with the `Instant::now()` it observes. -/
inductive Op where
  | register (id : Nat) (now : Nat)
  | query (id : Nat) (now : Nat)
deriving DecidableEq, Repr

/-- The `now` an operation observes. -/
def Op.time : Op → Nat
  | .register _ now => now
  | .query _ now => now

/-- Whether an operation is a query. -/
def Op.isQuery : Op → Bool
  | .register _ _ => false
  | .query _ _ => true

/-- The table state after one call, whether it returned normally or panicked.
`limit_duration` takes `&self` and only calls `DashMap::get`, so a query leaves
the state untouched; a panicking `register` unwinds before writing. -/
def Bucket.afterCall (b : Bucket) : Op → Bucket
  | .register id now =>
    match b.register id now with
    | .ok b2 => b2
    | .error b2 => b2
  | .query _ _ => b

/-- The state after a sequence of calls. -/
def Bucket.run (b : Bucket) : List Op → Bucket
  | [] => b
  | op :: ops => (b.afterCall op).run ops

/-- The table invariant exactly as the spec words it (§3): every entry has
`count` between 1 and `limit.max_count` inclusive, or has just been reset to 1
because its `last_seen` is older than the window. -/
def specCountInvariant (b : Bucket) (now : Nat) : Prop :=
  ∀ id u, b.usages id = some u →
    (1 ≤ u.count ∧ u.count ≤ b.limit.count) ∨
    (u.count = 1 ∧ now - u.time > b.limit.duration)

/-- The invariant the code actually maintains: every entry has a count between
1 and `u16::MAX`, and its timestamp is one observed by some call, hence at most
any upper bound `T` on the observed clock values. -/
def codeInvariant (b : Bucket) (T : Nat) : Prop :=
  ∀ id u, b.usages id = some u → 1 ≤ u.count ∧ u.count ≤ 65535 ∧ u.time ≤ T

/-- A bucket holding exactly one usage entry, used as a concrete test state. -/
def singletonBucket (l : Limit) (id : Nat) (u : Usage) : Bucket :=
  Bucket.mk l (mapInsert (fun _ => none) id u)

theorem register_zero_id (b : Bucket) (now : Nat) :
    b.register 0 now = Except.error b := by
  simp [Bucket.register]

theorem register_absent (b : Bucket) (id now : Nat) (hid : id ≠ 0)
    (hu : b.usages id = none) :
    b.register id now =
      Except.ok (Bucket.mk b.limit (mapInsert b.usages id (Usage.new now))) := by
  rw [Bucket.register, if_neg hid, hu]

theorem register_expired (b : Bucket) (id now : Nat) (u : Usage) (hid : id ≠ 0)
    (hu : b.usages id = some u) (hexp : now - u.time > b.limit.duration) :
    b.register id now =
      Except.ok (Bucket.mk b.limit (mapInsert b.usages id (Usage.mk now 1))) := by
  rw [Bucket.register, if_neg hid, hu]
  simp [hexp]

theorem register_increment (b : Bucket) (id now : Nat) (u : Usage) (hid : id ≠ 0)
    (hu : b.usages id = some u) (hexp : ¬ now - u.time > b.limit.duration)
    (hov : u.count + 1 ≤ 65535) :
    b.register id now =
      Except.ok (Bucket.mk b.limit (mapInsert b.usages id (Usage.mk now (u.count + 1)))) := by
  rw [Bucket.register, if_neg hid, hu]
  simp [hexp, addU16, hov]

theorem register_overflow (b : Bucket) (id now : Nat) (u : Usage) (hid : id ≠ 0)
    (hu : b.usages id = some u) (hexp : ¬ now - u.time > b.limit.duration)
    (hov : ¬ u.count + 1 ≤ 65535) :
    b.register id now = Except.error b := by
  rw [Bucket.register, if_neg hid, hu]
  simp [hexp, addU16, hov]

theorem mapInsert_lookup (m : Nat → Option Usage) (k q : Nat) (v : Usage) :
    mapInsert m k v q = if q = k then some v else m q := rfl

theorem codeInvariant_insert (b : Bucket) (T k : Nat) (v : Usage)
    (hb : codeInvariant b T) (h1 : 1 ≤ v.count) (h2 : v.count ≤ 65535)
    (h3 : v.time ≤ T) :
    codeInvariant (Bucket.mk b.limit (mapInsert b.usages k v)) T := by
  intro q u hq
  simp only [mapInsert] at hq
  by_cases hqi : q = k
  · rw [if_pos hqi] at hq
    obtain rfl := Option.some.inj hq
    exact ⟨h1, h2, h3⟩
  · rw [if_neg hqi] at hq
    exact hb q u hq

theorem codeInvariant_afterCall (b : Bucket) (T : Nat) (op : Op)
    (hb : codeInvariant b T) (hop : op.time ≤ T) :
    codeInvariant (b.afterCall op) T := by
  cases op with
  | query id now => exact hb
  | register id now =>
    simp only [Op.time] at hop
    by_cases hid : id = 0
    · subst hid
      simpa only [Bucket.afterCall, register_zero_id] using hb
    · cases hu : b.usages id with
      | none =>
        simp only [Bucket.afterCall, register_absent b id now hid hu]
        exact codeInvariant_insert b T id (Usage.new now) hb
          (Nat.le_refl 1) (by simp [Usage.new]) hop
      | some usage =>
        by_cases hexp : now - usage.time > b.limit.duration
        · simp only [Bucket.afterCall, register_expired b id now usage hid hu hexp]
          exact codeInvariant_insert b T id (Usage.mk now 1) hb
            (Nat.le_refl 1) (by simp) hop
        · by_cases hov : usage.count + 1 ≤ 65535
          · simp only [Bucket.afterCall,
              register_increment b id now usage hid hu hexp hov]
            exact codeInvariant_insert b T id (Usage.mk now (usage.count + 1)) hb
              (by simp) (by simpa using hov) hop
          · simpa only [Bucket.afterCall,
              register_overflow b id now usage hid hu hexp hov] using hb

theorem limit_duration_zero_id (b : Bucket) (now : Nat) :
    b.limit_duration 0 now = Except.error b := by
  simp [Bucket.limit_duration]

theorem limit_duration_absent (b : Bucket) (id now : Nat) (hid : id ≠ 0)
    (hu : b.usages id = none) :
    b.limit_duration id now = Except.ok none := by
  rw [Bucket.limit_duration, if_neg hid, hu]

theorem limit_duration_present (b : Bucket) (id now : Nat) (u : Usage) (hid : id ≠ 0)
    (hu : b.usages id = some u) :
    b.limit_duration id now =
      Except.ok (if u.count ≥ b.limit.count ∧ b.limit.duration > now - u.time
        then some (b.limit.duration - (now - u.time)) else none) := by
  rw [Bucket.limit_duration, if_neg hid, hu]

theorem codeInvariant_run (T : Nat) (ops : List Op) :
    ∀ b : Bucket, codeInvariant b T → (∀ op ∈ ops, op.time ≤ T) →
      codeInvariant (b.run ops) T := by
  induction ops with
  | nil => exact fun b hb _ => hb
  | cons op os ih =>
    intro b hb hT
    exact ih (b.afterCall op)
      (codeInvariant_afterCall b T op hb (hT op (List.mem_cons_self op os)))
      (fun o ho => hT o (List.mem_cons_of_mem op ho))

theorem run_queries_id (qs : List Op) :
    (∀ op ∈ qs, op.isQuery = true) → ∀ b : Bucket, b.run qs = b := by
  induction qs with
  | nil => exact fun _ _ => rfl
  | cons op os ih =>
    intro h b
    cases op with
    | register i n =>
      exact absurd (h _ (List.mem_cons_self _ _)) (by simp [Op.isQuery])
    | query i n =>
      exact ih (fun o ho => h o (List.mem_cons_of_mem _ ho)) b

/-- C1: for a non-zero identifier, `limit_duration` returns `None` when the
identifier has no entry; when an entry exists it returns `None` if the stored
count is below `limit.count` or the elapsed time since `last_seen` is at least
the window, and otherwise returns `Some (window - elapsed)`, a strictly
positive duration. -/
theorem claim1_limit_duration_behavior (b : Bucket) (id now : Nat) (hid : id ≠ 0) :
    (b.usages id = none → b.limit_duration id now = Except.ok none) ∧
    (∀ u, b.usages id = some u →
      ((u.count < b.limit.count ∨ now - u.time ≥ b.limit.duration) →
        b.limit_duration id now = Except.ok none) ∧
      (u.count ≥ b.limit.count → now - u.time < b.limit.duration →
        b.limit_duration id now =
          Except.ok (some (b.limit.duration - (now - u.time))) ∧
        0 < b.limit.duration - (now - u.time))) := by
  refine ⟨fun hu => limit_duration_absent b id now hid hu,
    fun u hu => ⟨fun hcase => ?_, fun hcnt helap => ⟨?_, by omega⟩⟩⟩
  · rw [limit_duration_present b id now u hid hu, if_neg (by omega)]
  · rw [limit_duration_present b id now u hid hu, if_pos ⟨hcnt, helap⟩]

/-- C1 witness: the behavior at a concrete one-entry bucket. -/
theorem claim1_witness :
    (1 : Nat) ≠ 0 ∧
    (((singletonBucket (Limit.new 10 1) 1 (Usage.mk 0 1)).usages 1 = none →
      (singletonBucket (Limit.new 10 1) 1 (Usage.mk 0 1)).limit_duration 1 2 =
        Except.ok none) ∧
    (∀ u, (singletonBucket (Limit.new 10 1) 1 (Usage.mk 0 1)).usages 1 = some u →
      ((u.count < (singletonBucket (Limit.new 10 1) 1 (Usage.mk 0 1)).limit.count ∨
          2 - u.time ≥ (singletonBucket (Limit.new 10 1) 1 (Usage.mk 0 1)).limit.duration) →
        (singletonBucket (Limit.new 10 1) 1 (Usage.mk 0 1)).limit_duration 1 2 =
          Except.ok none) ∧
      (u.count ≥ (singletonBucket (Limit.new 10 1) 1 (Usage.mk 0 1)).limit.count →
        2 - u.time < (singletonBucket (Limit.new 10 1) 1 (Usage.mk 0 1)).limit.duration →
        (singletonBucket (Limit.new 10 1) 1 (Usage.mk 0 1)).limit_duration 1 2 =
          Except.ok (some ((singletonBucket (Limit.new 10 1) 1 (Usage.mk 0 1)).limit.duration -
            (2 - u.time))) ∧
        0 < (singletonBucket (Limit.new 10 1) 1 (Usage.mk 0 1)).limit.duration -
          (2 - u.time)))) :=
  ⟨by decide,
    claim1_limit_duration_behavior (singletonBucket (Limit.new 10 1) 1 (Usage.mk 0 1)) 1 2
      (by decide)⟩

/-- C2: for a non-zero identifier, `register` creates an entry with count 1 and
`last_seen = now` when no entry exists; when an entry exists it resets the
count to 1 if `now - last_seen` is strictly greater than the window and
otherwise (when the increment stays representable) increments it by 1; in
every normally returning branch the entry ends with `last_seen = now`. -/
theorem claim2_register_behavior (b : Bucket) (id now : Nat) (hid : id ≠ 0) :
    (b.usages id = none →
      b.register id now =
        Except.ok (Bucket.mk b.limit (mapInsert b.usages id (Usage.mk now 1)))) ∧
    (∀ u, b.usages id = some u →
      (now - u.time > b.limit.duration →
        b.register id now =
          Except.ok (Bucket.mk b.limit (mapInsert b.usages id (Usage.mk now 1)))) ∧
      (¬ now - u.time > b.limit.duration → u.count + 1 ≤ 65535 →
        b.register id now =
          Except.ok (Bucket.mk b.limit
            (mapInsert b.usages id (Usage.mk now (u.count + 1)))))) ∧
    (∀ b2, b.register id now = Except.ok b2 →
      ∃ c, b2.usages id = some (Usage.mk now c)) := by
  refine ⟨fun hu => register_absent b id now hid hu,
    fun u hu => ⟨fun hexp => register_expired b id now u hid hu hexp,
      fun hexp hov => register_increment b id now u hid hu hexp hov⟩,
    fun b2 hb2 => ?_⟩
  cases hu : b.usages id with
  | none =>
    rw [register_absent b id now hid hu] at hb2
    obtain rfl := Except.ok.inj hb2
    exact ⟨1, by simp [mapInsert, Usage.new]⟩
  | some u =>
    by_cases hexp : now - u.time > b.limit.duration
    · rw [register_expired b id now u hid hu hexp] at hb2
      obtain rfl := Except.ok.inj hb2
      exact ⟨1, by simp [mapInsert]⟩
    · by_cases hov : u.count + 1 ≤ 65535
      · rw [register_increment b id now u hid hu hexp hov] at hb2
        obtain rfl := Except.ok.inj hb2
        exact ⟨u.count + 1, by simp [mapInsert]⟩
      · rw [register_overflow b id now u hid hu hexp hov] at hb2
        exact absurd hb2 (by simp)

/-- C2 witness: the behavior at a concrete empty bucket. -/
theorem claim2_witness :
    (3 : Nat) ≠ 0 ∧
    (((Bucket.new (Limit.new 10 2)).usages 3 = none →
      (Bucket.new (Limit.new 10 2)).register 3 7 =
        Except.ok (Bucket.mk (Bucket.new (Limit.new 10 2)).limit
          (mapInsert (Bucket.new (Limit.new 10 2)).usages 3 (Usage.mk 7 1)))) ∧
    (∀ u, (Bucket.new (Limit.new 10 2)).usages 3 = some u →
      (7 - u.time > (Bucket.new (Limit.new 10 2)).limit.duration →
        (Bucket.new (Limit.new 10 2)).register 3 7 =
          Except.ok (Bucket.mk (Bucket.new (Limit.new 10 2)).limit
            (mapInsert (Bucket.new (Limit.new 10 2)).usages 3 (Usage.mk 7 1)))) ∧
      (¬ 7 - u.time > (Bucket.new (Limit.new 10 2)).limit.duration →
        u.count + 1 ≤ 65535 →
        (Bucket.new (Limit.new 10 2)).register 3 7 =
          Except.ok (Bucket.mk (Bucket.new (Limit.new 10 2)).limit
            (mapInsert (Bucket.new (Limit.new 10 2)).usages 3
              (Usage.mk 7 (u.count + 1)))))) ∧
    (∀ b2, (Bucket.new (Limit.new 10 2)).register 3 7 = Except.ok b2 →
      ∃ c, b2.usages 3 = some (Usage.mk 7 c))) :=
  ⟨by decide, claim2_register_behavior (Bucket.new (Limit.new 10 2)) 3 7 (by decide)⟩

/-- C4: registering an identifier whose stored count is `u16::MAX = 65535`
within a non-expired window panics (the checked increment fails) and the count
never silently wraps: the stored entry is unchanged. -/
theorem claim4_overflow_panics (b : Bucket) (id now : Nat) (u : Usage) (hid : id ≠ 0)
    (hu : b.usages id = some u) (hmax : u.count = 65535)
    (hwin : ¬ now - u.time > b.limit.duration) :
    b.register id now = Except.error b ∧
    (b.afterCall (Op.register id now)).usages id = some u := by
  have herr := register_overflow b id now u hid hu hwin (by omega)
  exact ⟨herr, by simp [Bucket.afterCall, herr, hu]⟩

/-- C4 witness: overflow panic at a concrete saturated entry. -/
theorem claim4_witness :
    ((1 : Nat) ≠ 0 ∧
     (singletonBucket (Limit.new 10 1) 1 (Usage.mk 0 65535)).usages 1 =
       some (Usage.mk 0 65535) ∧
     (Usage.mk 0 65535).count = 65535 ∧
     ¬ 1 - (Usage.mk 0 65535).time >
       (singletonBucket (Limit.new 10 1) 1 (Usage.mk 0 65535)).limit.duration) ∧
    ((singletonBucket (Limit.new 10 1) 1 (Usage.mk 0 65535)).register 1 1 =
       Except.error (singletonBucket (Limit.new 10 1) 1 (Usage.mk 0 65535)) ∧
     ((singletonBucket (Limit.new 10 1) 1 (Usage.mk 0 65535)).afterCall
       (Op.register 1 1)).usages 1 = some (Usage.mk 0 65535)) :=
  ⟨⟨by decide, by decide, by decide, by decide⟩,
    claim4_overflow_panics (singletonBucket (Limit.new 10 1) 1 (Usage.mk 0 65535)) 1 1
      (Usage.mk 0 65535) (by decide) (by decide) (by decide) (by decide)⟩

/-- C7: calling `register` or `limit_duration` with identifier 0 panics
(`Except.error`) and leaves the table unchanged for every identifier. -/
theorem claim7_zero_id_panics (b : Bucket) (now : Nat) :
    b.register 0 now = Except.error b ∧
    b.limit_duration 0 now = Except.error b ∧
    b.afterCall (Op.register 0 now) = b ∧
    b.afterCall (Op.query 0 now) = b ∧
    (∀ id2, (b.afterCall (Op.register 0 now)).usages id2 = b.usages id2) := by
  refine ⟨register_zero_id b now, limit_duration_zero_id b now, ?_, rfl, fun id2 => ?_⟩
  · simp [Bucket.afterCall, register_zero_id]
  · simp [Bucket.afterCall, register_zero_id]

/-- C10: `register` modifies at most the single entry for `id`: every other
identifier's entry (or absence of one) is identical before and after the
call. -/
theorem claim10_register_frame (b : Bucket) (id now id2 : Nat) (h : id2 ≠ id) :
    (b.afterCall (Op.register id now)).usages id2 = b.usages id2 := by
  by_cases hid : id = 0
  · subst hid
    simp [Bucket.afterCall, register_zero_id]
  · cases hu : b.usages id with
    | none =>
      simp [Bucket.afterCall, register_absent b id now hid hu, mapInsert, h]
    | some u =>
      by_cases hexp : now - u.time > b.limit.duration
      · simp [Bucket.afterCall, register_expired b id now u hid hu hexp, mapInsert, h]
      · by_cases hov : u.count + 1 ≤ 65535
        · simp [Bucket.afterCall, register_increment b id now u hid hu hexp hov,
            mapInsert, h]
        · simp [Bucket.afterCall, register_overflow b id now u hid hu hexp hov]

/-- C10 witness: registering id 1 leaves the entry of id 2 untouched. -/
theorem claim10_witness :
    (2 : Nat) ≠ 1 ∧
    ((singletonBucket (Limit.new 10 1) 2 (Usage.mk 0 1)).afterCall
      (Op.register 1 4)).usages 2 =
      (singletonBucket (Limit.new 10 1) 2 (Usage.mk 0 1)).usages 2 :=
  ⟨by decide,
    claim10_register_frame (singletonBucket (Limit.new 10 1) 2 (Usage.mk 0 1)) 1 4 2
      (by decide)⟩

/-- C3 counterexample: two quick registrations of the same identifier under
`Limit.new 10 1` reach a table entry with count 2 > max_count 1 whose window
has not elapsed, refuting the spec's count invariant for reachable states. -/
theorem claim3_counterexample :
    ((Bucket.new (Limit.new 10 1)).run [Op.register 1 0, Op.register 1 1]).usages 1 =
      some (Usage.mk 1 2) ∧
    ((Bucket.new (Limit.new 10 1)).run [Op.register 1 0, Op.register 1 1]).limit =
      Limit.new 10 1 ∧
    ¬ specCountInvariant
      ((Bucket.new (Limit.new 10 1)).run [Op.register 1 0, Op.register 1 1]) 1 := by
  refine ⟨rfl, rfl, fun h => ?_⟩
  have h1 := h 1 (Usage.mk 1 2) rfl
  rw [show ((Bucket.new (Limit.new 10 1)).run [Op.register 1 0, Op.register 1 1]).limit =
    Limit.new 10 1 from rfl] at h1
  simp [Limit.new] at h1

/-- C3 (amended): in every tracker state reachable from a fresh tracker by
calls whose observed clock values are at most `T`, every entry has a count
between 1 and `u16::MAX = 65535`, and its `last_seen` is at most `T`; the
spec's bound `count ≤ max_count` does not hold because `register` increments
without consulting the limit. -/
theorem claim3_amended_invariant (l : Limit) (ops : List Op) (T : Nat)
    (hT : ∀ op ∈ ops, op.time ≤ T) :
    codeInvariant ((Bucket.new l).run ops) T :=
  codeInvariant_run T ops (Bucket.new l)
    (fun id u hu => by simp [Bucket.new] at hu) hT

/-- C3 witness: the amended invariant at a concrete two-call run. -/
theorem claim3_witness :
    (∀ op ∈ [Op.register 1 0, Op.register 1 1], op.time ≤ 1) ∧
    codeInvariant ((Bucket.new (Limit.new 10 1)).run [Op.register 1 0, Op.register 1 1]) 1 :=
  ⟨by decide,
    claim3_amended_invariant (Limit.new 10 1) [Op.register 1 0, Op.register 1 1] 1
      (by decide)⟩

/-- C5 counterexample: under `Limit.new 5 0` (zero max_count), after
registering identifier 1 at time 0, the query at time 5 — once the window has
elapsed — reports "not limited", refuting permanent limitation. -/
theorem claim5_counterexample :
    (Bucket.new (Limit.new 5 0)).register 1 0 =
      Except.ok (singletonBucket (Limit.new 5 0) 1 (Usage.new 0)) ∧
    (singletonBucket (Limit.new 5 0) 1 (Usage.new 0)).limit_duration 1 4 =
      Except.ok (some 1) ∧
    (singletonBucket (Limit.new 5 0) 1 (Usage.new 0)).limit_duration 1 5 =
      Except.ok none :=
  ⟨rfl, rfl, rfl⟩

/-- C5 (amended): with a zero max_count, once an identifier has an entry
(which its first registration creates), a query reports "limited" exactly
while the elapsed time since `last_seen` is strictly less than the window;
once the elapsed time reaches the window it reports "not limited", so the
limitation is not permanent. -/
theorem claim5_amended_zero_count (b : Bucket) (id t : Nat) (u : Usage)
    (hid : id ≠ 0) (hc : b.limit.count = 0) (hu : b.usages id = some u) :
    (t - u.time < b.limit.duration →
      b.limit_duration id t =
        Except.ok (some (b.limit.duration - (t - u.time))) ∧
      0 < b.limit.duration - (t - u.time)) ∧
    (b.limit.duration ≤ t - u.time → b.limit_duration id t = Except.ok none) := by
  have hp := limit_duration_present b id t u hid hu
  constructor
  · intro ht
    rw [hp, if_pos ⟨by omega, ht⟩]
    exact ⟨rfl, by omega⟩
  · intro ht
    rw [hp, if_neg (by omega)]

/-- C5 witness: the amended statement at a concrete zero-count bucket. -/
theorem claim5_witness :
    ((1 : Nat) ≠ 0 ∧
     (singletonBucket (Limit.new 5 0) 1 (Usage.new 0)).limit.count = 0 ∧
     (singletonBucket (Limit.new 5 0) 1 (Usage.new 0)).usages 1 = some (Usage.new 0)) ∧
    ((4 - (Usage.new 0).time < (singletonBucket (Limit.new 5 0) 1 (Usage.new 0)).limit.duration →
      (singletonBucket (Limit.new 5 0) 1 (Usage.new 0)).limit_duration 1 4 =
        Except.ok (some ((singletonBucket (Limit.new 5 0) 1 (Usage.new 0)).limit.duration -
          (4 - (Usage.new 0).time))) ∧
      0 < (singletonBucket (Limit.new 5 0) 1 (Usage.new 0)).limit.duration -
        (4 - (Usage.new 0).time)) ∧
    ((singletonBucket (Limit.new 5 0) 1 (Usage.new 0)).limit.duration ≤
        4 - (Usage.new 0).time →
      (singletonBucket (Limit.new 5 0) 1 (Usage.new 0)).limit_duration 1 4 =
        Except.ok none)) :=
  ⟨⟨by decide, by decide, by decide⟩,
    claim5_amended_zero_count (singletonBucket (Limit.new 5 0) 1 (Usage.new 0)) 1 4
      (Usage.new 0) (by decide) (by decide) (by decide)⟩

/-- C6 counterexample: under `Limit.new 5 1` with an entry last seen at time 0
and count 1, at time 5 the elapsed time equals the window, so the query
reports "not limited" — yet `register` at time 5 increments the count to 2
instead of resetting it to 1 (the reset requires strictly greater elapsed
time). -/
theorem claim6_counterexample :
    (singletonBucket (Limit.new 5 1) 1 (Usage.mk 0 1)).limit_duration 1 5 =
      Except.ok none ∧
    ((singletonBucket (Limit.new 5 1) 1 (Usage.mk 0 1)).afterCall
      (Op.register 1 5)).usages 1 = some (Usage.mk 5 2) :=
  ⟨rfl, rfl⟩

/-- C6 (amended): whenever the elapsed time since `last_seen` strictly exceeds
the window, the next `register` on that identifier resets its count to 1; at
an elapsed time exactly equal to the window the query already reports "not
limited" but `register` still increments. -/
theorem claim6_amended_reset (b : Bucket) (id now : Nat) (u : Usage)
    (hid : id ≠ 0) (hu : b.usages id = some u)
    (hexp : now - u.time > b.limit.duration) :
    b.register id now =
      Except.ok (Bucket.mk b.limit (mapInsert b.usages id (Usage.mk now 1))) ∧
    (b.afterCall (Op.register id now)).usages id = some (Usage.mk now 1) := by
  have h := register_expired b id now u hid hu hexp
  exact ⟨h, by simp [Bucket.afterCall, h, mapInsert]⟩

/-- C6 witness: the strict-expiry reset at a concrete bucket. -/
theorem claim6_witness :
    ((1 : Nat) ≠ 0 ∧
     (singletonBucket (Limit.new 5 1) 1 (Usage.mk 0 1)).usages 1 = some (Usage.mk 0 1) ∧
     6 - (Usage.mk 0 1).time > (singletonBucket (Limit.new 5 1) 1 (Usage.mk 0 1)).limit.duration) ∧
    ((singletonBucket (Limit.new 5 1) 1 (Usage.mk 0 1)).register 1 6 =
      Except.ok (Bucket.mk (singletonBucket (Limit.new 5 1) 1 (Usage.mk 0 1)).limit
        (mapInsert (singletonBucket (Limit.new 5 1) 1 (Usage.mk 0 1)).usages 1
          (Usage.mk 6 1))) ∧
     ((singletonBucket (Limit.new 5 1) 1 (Usage.mk 0 1)).afterCall
       (Op.register 1 6)).usages 1 = some (Usage.mk 6 1)) :=
  ⟨⟨by decide, by decide, by decide⟩,
    claim6_amended_reset (singletonBucket (Limit.new 5 1) 1 (Usage.mk 0 1)) 1 6
      (Usage.mk 0 1) (by decide) (by decide) (by decide)⟩

/-- C8: a sequence of queries never mutates the stored state: running any list
of query operations leaves the table identical, and hence repeated queries
with no intervening register have the same outcome as against the original
state. -/
theorem claim8_query_no_mutation (b : Bucket) (qs : List Op)
    (hq : ∀ op ∈ qs, op.isQuery = true) :
    b.run qs = b ∧
    ∀ id now, (b.run qs).limit_duration id now = b.limit_duration id now := by
  have h := run_queries_id qs hq b
  exact ⟨h, fun id now => by rw [h]⟩

/-- C8 witness: two consecutive queries leave a concrete bucket unchanged. -/
theorem claim8_witness :
    (∀ op ∈ [Op.query 1 0, Op.query 1 3], op.isQuery = true) ∧
    ((Bucket.new (Limit.new 5 1)).run [Op.query 1 0, Op.query 1 3] =
      Bucket.new (Limit.new 5 1) ∧
     ∀ id now,
       ((Bucket.new (Limit.new 5 1)).run [Op.query 1 0, Op.query 1 3]).limit_duration id now =
         (Bucket.new (Limit.new 5 1)).limit_duration id now) :=
  ⟨by decide,
    claim8_query_no_mutation (Bucket.new (Limit.new 5 1)) [Op.query 1 0, Op.query 1 3]
      (by decide)⟩

/-- C9: between two queries at times `t1 < t2` with no intervening register
(the same state), both reporting "limited", the remaining duration strictly
decreases, assuming the monotone clock (the entry's `last_seen` is at most
`t1`). -/
theorem claim9_remaining_decreases (b : Bucket) (id t1 t2 d1 d2 : Nat) (u : Usage)
    (hu : b.usages id = some u) (hmono : u.time ≤ t1) (ht : t1 < t2)
    (h1 : b.limit_duration id t1 = Except.ok (some d1))
    (h2 : b.limit_duration id t2 = Except.ok (some d2)) :
    d2 < d1 := by
  by_cases hid : id = 0
  · subst hid
    rw [limit_duration_zero_id] at h1
    exact absurd h1 (by simp)
  · rw [limit_duration_present b id t1 u hid hu] at h1
    rw [limit_duration_present b id t2 u hid hu] at h2
    by_cases hc1 : u.count ≥ b.limit.count ∧ b.limit.duration > t1 - u.time
    · rw [if_pos hc1] at h1
      by_cases hc2 : u.count ≥ b.limit.count ∧ b.limit.duration > t2 - u.time
      · rw [if_pos hc2] at h2
        have e1 := Option.some.inj (Except.ok.inj h1)
        have e2 := Option.some.inj (Except.ok.inj h2)
        omega
      · rw [if_neg hc2] at h2
        exact absurd (Except.ok.inj h2) (by simp)
    · rw [if_neg hc1] at h1
      exact absurd (Except.ok.inj h1) (by simp)

/-- C9 witness: remaining durations 8 then 5 at times 2 and 5 on a concrete
bucket, with 5 < 8. -/
theorem claim9_witness :
    ((singletonBucket (Limit.new 10 1) 1 (Usage.mk 0 1)).usages 1 = some (Usage.mk 0 1) ∧
     (Usage.mk 0 1).time ≤ 2 ∧ 2 < 5 ∧
     (singletonBucket (Limit.new 10 1) 1 (Usage.mk 0 1)).limit_duration 1 2 =
       Except.ok (some 8) ∧
     (singletonBucket (Limit.new 10 1) 1 (Usage.mk 0 1)).limit_duration 1 5 =
       Except.ok (some 5)) ∧
    5 < 8 :=
  ⟨⟨by decide, by decide, by decide, rfl, rfl⟩,
    claim9_remaining_decreases (singletonBucket (Limit.new 10 1) 1 (Usage.mk 0 1)) 1 2 5 8 5
      (Usage.mk 0 1) (by decide) (by decide) (by decide) rfl rfl⟩
